import Mathlib

/-!
Verification of `nouhin.py`, the core module that extracts the 納品数
(delivery-quantity) sheet from an inventory workbook (在庫集計表),
filters and sorts the rows, and writes them into a duplicate of the
input file.

The Python module is shallowly embedded below:
* column-letter arithmetic (`get_column_letter`, `column_index_from_string`,
  `col_range`) and the weekday → column-range table `WEEKDAY_RANGE`;
* the extracted table rows (`Row`, with the ten positional columns the
  DataFrame holds after extraction), the zero filter of `prepare`
  (line 161) and the stable three-key sort `sort_final`;
* the page-setup mutations of `write_out` (lines 133–139) as a record
  transformation `write_out_pagesetup`;
* the two formula cells emitted per written row (`formulaCells` built
  from the literal f-string templates of lines 125–131), compared with
  a structured spec-side description (`Fml`, `render`);
* the delivery-date validation prefix of `prepare` (`prepareCheck`);
* the output-file creation policy `safe_copy` and the file-system
  effect of `write_out` (`FSM.safe_copy`, `FSM.write_out`) over an
  explicit file-system state.
-/

namespace Nouhin

/-! ### Constants (nouhin.py lines 28–34) -/

def DATA_START_ROW_SRC : Nat := 8

def DATA_START_ROW_DST : Nat := 5

def FIXED_COLS : List String := ["A", "B", "AN", "AQ"]

/-- `WEEKDAY_RANGE = {0:("H","M"),1:("M","R"),2:("R","W"),3:("W","AB"),4:("AB","AG"),5:("AG","AL")}`
(nouhin.py line 34); key is the Python weekday, Monday = 0. -/
def WEEKDAY_RANGE : List (Nat × String × String) :=
  [(0, ("H", "M")), (1, ("M", "R")), (2, ("R", "W")),
   (3, ("W", "AB")), (4, ("AB", "AG")), (5, ("AG", "AL"))]

/-- Dictionary lookup `WEEKDAY_RANGE[w]`. -/
def lookupRange (w : Nat) : Option (String × String) :=
  (WEEKDAY_RANGE.find? (fun e => e.1 == w)).map (·.2)

/-! ### Column-letter arithmetic (openpyxl utils used by `col_range`) -/

/-- Digits of the bijective base-26 column representation, most significant
first; `fuel` bounds the recursion and `fuel = n` always suffices. -/
def colLettersAux : Nat → Nat → List Char
  | 0, _ => []
  | _ + 1, 0 => []
  | fuel + 1, n + 1 =>
    colLettersAux fuel (n / 26) ++ [Char.ofNat (65 + n % 26)]

/-- `openpyxl.utils.get_column_letter`: 1 ↦ "A", …, 26 ↦ "Z", 27 ↦ "AA". -/
def get_column_letter (n : Nat) : String :=
  ⟨colLettersAux n n⟩

/-- `openpyxl.utils.column_index_from_string`: "A" ↦ 1, …, "AA" ↦ 27. -/
def column_index_from_string (s : String) : Nat :=
  s.data.foldl (fun acc c => acc * 26 + (c.toNat - 64)) 0

/-- `col_range(a, b)` (nouhin.py lines 38–39): every column letter from
`a` to `b`, both ends included. -/
def col_range (a b : String) : List String :=
  (List.range' (column_index_from_string a)
      (column_index_from_string b + 1 - column_index_from_string a)).map
    get_column_letter

/-- The column selection assembled in `prepare` (line 159):
`letters = FIXED_COLS + col_range(*WEEKDAY_RANGE[weekday])`. -/
def colSelection (w : Nat) : Option (List String) :=
  (lookupRange w).map fun p => FIXED_COLS ++ col_range p.1 p.2

/-! ### Delivery-date validation prefix of `prepare` (lines 146–157)

`prepare` first parses the date string (`datetime.strptime`, which raises
a `ValueError` on a malformed string — modelled by a `none` parse result),
then rejects weekday 6 (Sunday) and any weekday missing from
`WEEKDAY_RANGE` with a `ValueError`, and only then tests whether the
source path exists, raising `FileNotFoundError` when it does not. -/

inductive PrepErr where
  | valueError
  | fileNotFound
  deriving DecidableEq, Repr

/-- The validation prefix of `prepare`: `parsed` is the weekday of the
parsed delivery date (`none` when `strptime` fails), `srcExists` whether
`src.exists()` would return true. -/
def prepareCheck (parsed : Option Nat) (srcExists : Bool) : Except PrepErr Unit :=
  match parsed with
  | none => .error .valueError
  | some w =>
    if w == 6 then .error .valueError
    else if (lookupRange w).isNone then .error .valueError
    else if !srcExists then .error .fileNotFound
    else .ok ()

/-! ### The extracted table (`load_df` output) and `sort_final` (lines 50–59)

After extraction the DataFrame has ten positional columns; cell values
are strings, numbers, or missing (`NaN`).  `sort_final` computes
* `I    = df.iloc[:, 8].fillna('').astype(str).str.strip()`
* `rank = np.where(I == '箱', 3, 2)`
* `pref = df['商品名'].astype(str).str[0]` (`商品名` is positional column 1)
* `sub1 = np.select([(rank==2)&(pref=='■'), (rank==2)&(pref=='□')], [0,1], default=2)`
* `sub1 = np.where(rank == 3, 3, sub1)`
* `sub2 = np.where(sub1 >= 1, df['商品コード'].astype(str), '')` (column 0)
and sorts by `(_r desc, _s1 asc, _s2 asc)` with a stable sort. -/

/-- One spreadsheet cell of the extracted table. -/
inductive Cell where
  | str (s : String)
  | num (n : Int)
  | blank
  deriving DecidableEq, Repr

/-- One row of the extracted DataFrame; the fields are its ten positional
columns in order: `c0` = 商品コード, `c1` = 商品名, then `c2` … `c9`.
The zero filter reads `c4` and `c6`; the sorter reads `c8`. -/
structure Row where
  c0 : Cell
  c1 : Cell
  c2 : Cell
  c3 : Cell
  c4 : Cell
  c5 : Cell
  c6 : Cell
  c7 : Cell
  c8 : Cell
  c9 : Cell
  deriving DecidableEq, Repr

/-- `fillna('').astype(str)`: missing cells render as the empty string. -/
def cellStrFill : Cell → String
  | .str s => s
  | .num n => toString n
  | .blank => ""

/-- `astype(str)` without `fillna`: pandas renders `NaN` as `"nan"`. -/
def cellStr : Cell → String
  | .str s => s
  | .num n => toString n
  | .blank => "nan"

/-- `pandas == 0` on a cell: true only for a numeric cell equal to zero. -/
def cellIsZero : Cell → Bool
  | .num n => n == 0
  | _ => false

/-- `series.str[0] == c`: first character of the string, `False` on an
empty string (pandas yields `NaN` there). -/
def prefIs (s : String) (c : Char) : Bool :=
  match s.data with
  | [] => false
  | ch :: _ => ch == c

/-- Python `str.strip()`: drop leading and trailing whitespace. -/
def pyStrip (s : String) : String :=
  ⟨((s.data.dropWhile Char.isWhitespace).reverse.dropWhile Char.isWhitespace).reverse⟩

/-- `rank`: 3 when the stripped 9th positional field equals `箱`, else 2. -/
def rank (r : Row) : Nat :=
  if pyStrip (cellStrFill r.c8) = "箱" then 3 else 2

/-- `sub1`: the `np.select` over the name prefix, then overridden to 3 on
`rank == 3` rows by the `np.where`. -/
def sub1 (r : Row) : Nat :=
  let s :=
    if rank r = 2 ∧ prefIs (cellStr r.c1) '■' then 0
    else if rank r = 2 ∧ prefIs (cellStr r.c1) '□' then 1
    else 2
  if rank r = 3 then 3 else s

/-- `sub2`: the product code rendered as a string when `sub1 >= 1`,
else the empty string. -/
def sub2 (r : Row) : String :=
  if 1 ≤ sub1 r then cellStr r.c0 else ""

/-- The triple the rows are sorted on. -/
def sortKey (r : Row) : Nat × Nat × String :=
  (rank r, sub1 r, sub2 r)

/-- Lexicographic code-point comparison of character lists — the string
order Python (and hence pandas) uses. -/
def strLEb : List Char → List Char → Bool
  | [], _ => true
  | _ :: _, [] => false
  | x :: xs, y :: ys =>
    if x.toNat < y.toNat then true
    else if x.toNat = y.toNat then strLEb xs ys
    else false

/-- Lexicographic string comparison, `a ≤ b` in Python. -/
def strLE (a b : String) : Bool :=
  strLEb a.data b.data

/-- The lexicographic comparison `(_r desc, _s1 asc, _s2 asc)` used by
`sort_values(..., ascending=[False, True, True])`. -/
def keyLE (a b : Nat × Nat × String) : Bool :=
  decide (b.1 < a.1 ∨ (a.1 = b.1 ∧
    (a.2.1 < b.2.1 ∨ (a.2.1 = b.2.1 ∧ strLE a.2.2 b.2.2 = true))))

def rowLE (a b : Row) : Bool :=
  keyLE (sortKey a) (sortKey b)

/-- `sort_final` (lines 50–59): the stable (`kind='mergesort'`) sort of
the rows by `(_r desc, _s1 asc, _s2 asc)`. -/
def sort_final (l : List Row) : List Row :=
  l.mergeSort rowLE

/-! ### The zero filter of `prepare` (line 161) -/

/-- `True` exactly when line 161 keeps the row:
`~((df.iloc[:, 4] == 0) & (df.iloc[:, 6] == 0))`. -/
def keepRow (r : Row) : Bool :=
  !(cellIsZero r.c4 && cellIsZero r.c6)

/-- The business filter `df[~((df.iloc[:, 4] == 0) & (df.iloc[:, 6] == 0))]`. -/
def zeroFilter (l : List Row) : List Row :=
  l.filter keepRow

/-! ### Page setup of `write_out` (lines 133–139) -/

/-- The page-layout state of the destination worksheet: the fields the
claim speaks about.  `printArea` mirrors openpyxl's list-of-ranges
assignment `ws.print_area = ['A1:M…']`. -/
structure PageSetup where
  orientation : String
  fitToWidth : Option Nat
  marginTop : ℚ
  marginBottom : ℚ
  marginLeft : ℚ
  marginRight : ℚ
  horizontalCentered : Bool
  verticalCentered : Bool
  printArea : List String
  deriving DecidableEq, Repr

/-- Lines 133–139 of `write_out`, one `let` per source line, applied to
the layout state the destination sheet had in the copied workbook;
`n` is `len(df)`, the number of written rows. -/
def write_out_pagesetup (n : Nat) (p : PageSetup) : PageSetup :=
  let p := { p with orientation := "portrait" }
  let p := { p with fitToWidth := some 1 }
  let p := { p with marginTop := 0.4, marginBottom := 0.4,
                    marginLeft := 0.3, marginRight := 0.3 }
  let p := { p with horizontalCentered := true }
  let last_row := DATA_START_ROW_DST + n - 1
  { p with printArea := ["A1:M" ++ toString last_row] }

/-! ### Formula injection of `write_out` (lines 125–131)

For each written row `r = DATA_START_ROW_DST + i` the code sets
`ws[f'K{r}']` and `ws[f'M{r}']` from two literal f-string templates.
`formulaCells` lists, per written row, the `(row, column, formula)`
triples exactly as the code produces them. -/

/-- The f-string `f'=C{r}-E{r}+G{r}'` of line 127. -/
def kCell (r : Nat) : String :=
  "=C" ++ toString r ++ "-E" ++ toString r ++ "+G" ++ toString r

/-- The f-string of lines 128–131. -/
def mCell (r : Nat) : String :=
  "=IF(COUNTIFS($B" ++ toString r ++ ",\"*東一*\")>0,\"東一\"," ++
  "IF(COUNTIF($L" ++ toString r ++ ",\"■\")>0," ++
  "IF(COUNTIF($J" ++ toString r ++ ",\"○\")>0,\"荷受\",$K" ++ toString r ++
  "*-1),\"\"))"

/-- All formula cells written by the loop of lines 125–131 for `n` data
rows, in write order. -/
def formulaCells (n : Nat) : List (Nat × String × String) :=
  (List.range n).flatMap fun i =>
    let r := DATA_START_ROW_DST + i
    [(r, "K", kCell r), (r, "M", mCell r)]

/-! Spec-side description of the two templates: an abstract formula
syntax whose rendering is compared against the literal strings the
code emits.  `containsStr` is the wildcard substring test
(`COUNTIFS(cell,"*pat*")>0`), `matches` the exact-match test
(`COUNTIF(cell,"pat")>0`). -/

inductive Fml where
  | lit (s : String)
  | cellRef (col : String) (row : Nat)
  | add (a b : Fml)
  | sub (a b : Fml)
  | neg (a : Fml)
  | containsStr (col : String) (row : Nat) (pat : String)
  | matches (col : String) (row : Nat) (pat : String)
  | cond (c t e : Fml)

/-- Excel text of an abstract formula (without the leading `=`).
Negation renders as `…*-1`, the idiom the code uses. -/
def render : Fml → String
  | .lit s => "\"" ++ s ++ "\""
  | .cellRef c r => c ++ toString r
  | .add a b => render a ++ "+" ++ render b
  | .sub a b => render a ++ "-" ++ render b
  | .neg a => render a ++ "*-1"
  | .containsStr c r p => "COUNTIFS(" ++ c ++ toString r ++ ",\"*" ++ p ++ "*\")>0"
  | .matches c r p => "COUNTIF(" ++ c ++ toString r ++ ",\"" ++ p ++ "\")>0"
  | .cond c t e => "IF(" ++ render c ++ "," ++ render t ++ "," ++ render e ++ ")"

/-- Modelled from the spec: the first formula, `(col C) - (col E) + (col G)`
of row `r`. -/
def kSpec (r : Nat) : Fml :=
  .add (.sub (.cellRef "C" r) (.cellRef "E" r)) (.cellRef "G" r)

/-- Modelled from the spec: the 3-way conditional — if column B contains
the substring marker `東一` then the literal label `東一`; else if column L
has the filled-square marker then (nested) if column J has the circle
marker then the literal label `荷受`, else the negated value of column K
(the first formula's column); else the empty string. -/
def mSpec (r : Nat) : Fml :=
  .cond (.containsStr "$B" r "東一") (.lit "東一")
    (.cond (.matches "$L" r "■")
      (.cond (.matches "$J" r "○") (.lit "荷受") (.neg (.cellRef "$K" r)))
      (.lit ""))

/-! ### File-system model of `safe_copy` (lines 102–114) and
`write_out` (lines 118–142)

The file system is a partial map from file names to contents; `locked`
lists the names for which `shutil.copyfile` raises a `PermissionError`.
Each operation returns the outcome together with the file system it
leaves behind, so the theorems can speak about failing runs too.
`PermissionError` is the only error kind modelled (`prepare` has already
checked that the source exists), represented by `Except.error ()`. -/

namespace FSM

def FS := String → Option String

/-- Overwrite one name. -/
def fsUpdate (fs : FS) (n : String) (v : Option String) : FS :=
  fun m => if m = n then v else fs m

/-- `src.with_name(src.stem + "_prepared.xlsm")` — the extension is the
literal `".xlsm"`, whatever the source's extension was. -/
def baseName (stem : String) : String :=
  stem ++ "_prepared.xlsm"

def candSuffix (i : Nat) : String :=
  "_prepared(" ++ toString i ++ ").xlsm"

/-- `src.with_name(f"{src.stem}_prepared({i}).xlsm")`. -/
def candName (stem : String) (i : Nat) : String :=
  stem ++ candSuffix i

/-- `shutil.copyfile(srcN, dstN)`: fails on a locked destination,
otherwise overwrites `dstN` with the source's contents. -/
def copyFile (fs : FS) (locked : List String) (srcN dstN : String) :
    Option FS :=
  if dstN ∈ locked then none
  else some (fsUpdate fs dstN (some ((fs srcN).getD "")))

/-- The `for i in range(1, 100)` loop of `safe_copy`: try each candidate
index in turn, swallowing `PermissionError` and moving on. -/
def probe (stem srcN : String) (locked : List String) :
    FS → List Nat → Except Unit String × FS
  | fs, [] => (.error (), fs)
  | fs, i :: rest =>
    match copyFile fs locked srcN (candName stem i) with
    | some fs2 => (.ok (candName stem i), fs2)
    | none => probe stem srcN locked fs rest

/-- `safe_copy` (lines 102–114): copy to `stem_prepared.xlsm` when that
name is free (a failure of this first copy is not caught), otherwise
probe `stem_prepared(1).xlsm` … `stem_prepared(99).xlsm` and raise
`PermissionError` when every candidate fails. -/
def safe_copy (stem srcN : String) (fs : FS) (locked : List String) :
    Except Unit String × FS :=
  if (fs (baseName stem)).isSome then
    probe stem srcN locked fs (List.range' 1 99)
  else
    match copyFile fs locked srcN (baseName stem) with
    | some fs2 => (.ok (baseName stem), fs2)
    | none => (.error (), fs)

/-- `write_out` (lines 118–142) as a file-system effect: create the
duplicate with `safe_copy`, then transform only that duplicate in place
(`load_workbook` … `wb.save(out)`); `transform` stands for the whole
in-memory reshaping of the workbook. -/
def write_out (transform : String → String) (stem srcN : String)
    (fs : FS) (locked : List String) : Except Unit String × FS :=
  match safe_copy stem srcN fs locked with
  | (.error e, fs2) => (.error e, fs2)
  | (.ok out, fs2) => (.ok out, fsUpdate fs2 out (some (transform ((fs2 out).getD ""))))

/-- File system holding exactly one file. -/
def fsSingle (n v : String) : FS :=
  fun m => if m = n then some v else none

/-- Empty file system. -/
def fsEmpty : FS :=
  fun _ => none

end FSM

/-! ### Sample data used to instantiate the hypotheses of the theorems -/

/-- A template sheet whose page setup differs from the values `write_out`
assigns, with vertical centering switched on. -/
def samplePage : PageSetup :=
  { orientation := "landscape", fitToWidth := none,
    marginTop := 1, marginBottom := 1, marginLeft := 1, marginRight := 1,
    horizontalCentered := false, verticalCentered := true, printArea := [] }

/-- A 箱 (box) row. -/
def sampleRowBox : Row :=
  ⟨.str "102", .str "りんご", .num 2, .num 1, .num 3, .num 1, .num 0, .num 2, .str "箱", .num 5⟩

/-- A row with both filtered columns zero. -/
def sampleRowZero : Row :=
  ⟨.str "205", .str "みかん", .num 1, .num 1, .num 0, .num 2, .num 0, .num 1, .str "こ", .num 0⟩

instance : DecidableEq (Except PrepErr Unit) := fun a b =>
  match a, b with
  | .error x, .error y => decidable_of_iff (x = y) (by simp)
  | .ok x, .ok y => decidable_of_iff (x = y) (by simp)
  | .error _, .ok _ => .isFalse (by simp)
  | .ok _, .error _ => .isFalse (by simp)

/-! ## Theorems -/

/-- **C1, counterexample.**  The claim says the weekday range holds
exactly 5 columns and the whole selection 9.  On Monday (weekday 0) the
configured range is H–M, which spans 6 columns, and the assembled
selection has 10 columns. -/
theorem C1_counterexample :
    lookupRange 0 = some ("H", "M")
    ∧ (col_range "H" "M").length = 6
    ∧ (colSelection 0).map List.length = some 10
    ∧ (colSelection 0).map List.length ≠ some 9 := by
  refine ⟨rfl, by decide, by decide, by decide⟩

/-- **C1, amended.**  For every weekday Monday–Saturday the assembled
selection is the 4 fixed leading columns followed by the configured
weekday range inclusive of both end columns; the range spans exactly
6 columns, so the selection has exactly 10 columns in total. -/
theorem C1_col_selection (w : Nat) (h : w < 6) :
    ∃ a b, lookupRange w = some (a, b)
      ∧ colSelection w = some (FIXED_COLS ++ col_range a b)
      ∧ (col_range a b).length = 6
      ∧ (col_range a b).head? = some a
      ∧ (col_range a b).getLast? = some b
      ∧ (FIXED_COLS ++ col_range a b).length = 10 := by
  interval_cases w
  · exact ⟨"H", "M", by decide⟩
  · exact ⟨"M", "R", by decide⟩
  · exact ⟨"R", "W", by decide⟩
  · exact ⟨"W", "AB", by decide⟩
  · exact ⟨"AB", "AG", by decide⟩
  · exact ⟨"AG", "AL", by decide⟩

/-- Witness for `C1_col_selection` at weekday 0 (Monday). -/
theorem C1_col_selection_witness :
    ∃ a b, lookupRange 0 = some (a, b)
      ∧ colSelection 0 = some (FIXED_COLS ++ col_range a b)
      ∧ (col_range a b).length = 6
      ∧ (col_range a b).head? = some a
      ∧ (col_range a b).getLast? = some b
      ∧ (FIXED_COLS ++ col_range a b).length = 10 :=
  C1_col_selection 0 (by decide)

/-- **C6.**  For a well-formed date, `prepare` raises a `ValueError`-class
error exactly when the weekday is Sunday (6) or missing from
`WEEKDAY_RANGE`; all six Monday–Saturday weekdays are configured, so the
missing-entry case coincides with Sunday and weekdays 0–5 never raise a
weekday error. -/
theorem C6_weekday_validation (w : Nat) (h : w < 7) (srcExists : Bool) :
    (prepareCheck (some w) srcExists = .error .valueError
      ↔ (w = 6 ∨ lookupRange w = none))
    ∧ (lookupRange w = none ↔ w = 6) := by
  interval_cases w <;> cases srcExists <;> exact ⟨by decide, by decide⟩

/-- Witness for `C6_weekday_validation`: Sunday with an existing source. -/
theorem C6_weekday_validation_witness :
    (prepareCheck (some 6) true = .error .valueError
      ↔ (6 = 6 ∨ lookupRange 6 = none))
    ∧ (lookupRange 6 = none ↔ 6 = 6) :=
  C6_weekday_validation 6 (by decide) true

/-- **C10.**  Date validation precedes the file-system check: a malformed
date (`parsed = none`) or a Sunday date yields a `ValueError`-class error
whatever the state of the source path, and a `FileNotFoundError`-class
error is only reachable with a parsed weekday that is not Sunday, is
configured in `WEEKDAY_RANGE`, and a missing source path. -/
theorem C10_validation_precedes_fs (parsed : Option Nat) (srcExists : Bool) :
    ((parsed = none ∨ parsed = some 6) →
      prepareCheck parsed srcExists = .error .valueError)
    ∧ (prepareCheck parsed srcExists = .error .fileNotFound →
        ∃ w, parsed = some w ∧ w ≠ 6 ∧ (lookupRange w).isSome ∧ srcExists = false) := by
  constructor
  · rintro (rfl | rfl)
    · rfl
    · rfl
  · intro h
    cases parsed with
    | none => simp [prepareCheck] at h
    | some w =>
      have hred : prepareCheck (some w) srcExists =
          (if (w == 6) = true then Except.error PrepErr.valueError
           else if (lookupRange w).isNone = true then Except.error PrepErr.valueError
           else if (!srcExists) = true then Except.error PrepErr.fileNotFound
           else Except.ok ()) := rfl
      rw [hred] at h
      by_cases h6 : w = 6
      · subst h6; simp at h
      · by_cases hl : lookupRange w = none
        · simp [h6, hl] at h
        · by_cases hs : srcExists = true
          · simp [h6, hl, hs] at h
          · refine ⟨w, rfl, h6, ?_, by simpa using hs⟩
            rw [Option.isSome_iff_ne_none]
            exact hl

/-- Witness for `C10_validation_precedes_fs`: a Sunday date with a
missing source path still raises the `ValueError`-class error. -/
theorem C10_validation_precedes_fs_witness :
    prepareCheck (some 6) false = .error .valueError :=
  (C10_validation_precedes_fs (some 6) false).1 (Or.inr rfl)

/-! ### The sorter: transitivity and totality of the comparison -/

theorem strLEb_trans : ∀ (a b c : List Char),
    strLEb a b = true → strLEb b c = true → strLEb a c = true := by
  intro a
  induction a with
  | nil =>
    intro b c _ _
    rfl
  | cons x xs ih =>
    intro b c h1 h2
    cases b with
    | nil => simp [strLEb] at h1
    | cons y ys =>
      cases c with
      | nil => simp [strLEb] at h2
      | cons z zs =>
        simp only [strLEb] at h1 h2 ⊢
        by_cases hxy : x.toNat < y.toNat
        · by_cases hyz : y.toNat < z.toNat
          · rw [if_pos (by omega)]
          · by_cases heq : y.toNat = z.toNat
            · rw [if_pos (by omega)]
            · rw [if_neg hyz, if_neg heq] at h2
              exact absurd h2 (by simp)
        · by_cases heq : x.toNat = y.toNat
          · rw [if_neg hxy, if_pos heq] at h1
            by_cases hyz : y.toNat < z.toNat
            · rw [if_pos (by omega)]
            · by_cases heq2 : y.toNat = z.toNat
              · rw [if_neg (by omega), if_pos (by omega)]
                rw [if_neg hyz, if_pos heq2] at h2
                exact ih ys zs h1 h2
              · rw [if_neg hyz, if_neg heq2] at h2
                exact absurd h2 (by simp)
          · rw [if_neg hxy, if_neg heq] at h1
            exact absurd h1 (by simp)

theorem strLEb_total : ∀ (a b : List Char),
    strLEb a b || strLEb b a := by
  intro a
  induction a with
  | nil =>
    intro b
    rfl
  | cons x xs ih =>
    intro b
    cases b with
    | nil => simp [strLEb]
    | cons y ys =>
      simp only [strLEb]
      by_cases h : x.toNat < y.toNat
      · rw [if_pos h]
        simp
      · by_cases he : x.toNat = y.toNat
        · rw [if_neg h, if_pos he, if_neg (by omega), if_pos (by omega)]
          simpa using ih ys
        · rw [if_neg h, if_neg he, if_pos (by omega)]
          simp

theorem strLEb_refl : ∀ a : List Char, strLEb a a = true := by
  intro a
  induction a with
  | nil => rfl
  | cons x xs ih => simp [strLEb, ih]

theorem strLE_refl (s : String) : strLE s s = true :=
  strLEb_refl s.data

theorem strLE_trans {a b c : String} (h1 : strLE a b = true)
    (h2 : strLE b c = true) : strLE a c = true :=
  strLEb_trans a.data b.data c.data h1 h2

theorem strLE_total (a b : String) : strLE a b = true ∨ strLE b a = true := by
  have := strLEb_total a.data b.data
  simpa [strLE, Bool.or_eq_true] using this

theorem keyLE_trans {a b c : Nat × Nat × String}
    (h1 : keyLE a b) (h2 : keyLE b c) : keyLE a c := by
  simp only [keyLE, decide_eq_true_eq] at h1 h2 ⊢
  rcases h1 with h | ⟨e, h⟩
  · rcases h2 with h' | ⟨e', h'⟩
    · exact Or.inl (by omega)
    · exact Or.inl (by omega)
  · rcases h2 with h' | ⟨e', h'⟩
    · exact Or.inl (by omega)
    · refine Or.inr ⟨by omega, ?_⟩
      rcases h with h | ⟨e2, h⟩
      · rcases h' with h' | ⟨e2', h'⟩
        · exact Or.inl (by omega)
        · exact Or.inl (by omega)
      · rcases h' with h' | ⟨e2', h'⟩
        · exact Or.inl (by omega)
        · exact Or.inr ⟨by omega, strLE_trans h h'⟩

theorem keyLE_total (a b : Nat × Nat × String) : keyLE a b || keyLE b a := by
  simp only [keyLE, Bool.or_eq_true, decide_eq_true_eq]
  rcases Nat.lt_trichotomy a.1 b.1 with h | h | h
  · exact Or.inr (Or.inl h)
  · rcases Nat.lt_trichotomy a.2.1 b.2.1 with h' | h' | h'
    · exact Or.inl (Or.inr ⟨h, Or.inl h'⟩)
    · rcases strLE_total a.2.2 b.2.2 with h'' | h''
      · exact Or.inl (Or.inr ⟨h, Or.inr ⟨h', h''⟩⟩)
      · exact Or.inr (Or.inr ⟨h.symm, Or.inr ⟨h'.symm, h''⟩⟩)
    · exact Or.inr (Or.inr ⟨h.symm, Or.inl h'⟩)
  · exact Or.inl (Or.inl h)

theorem rowLE_trans (a b c : Row) (h1 : rowLE a b) (h2 : rowLE b c) :
    rowLE a c :=
  keyLE_trans h1 h2

theorem rowLE_total (a b : Row) : rowLE a b || rowLE b a :=
  keyLE_total (sortKey a) (sortKey b)

/-- **C2.**  `sort_final` orders the rows by rank descending, then `sub1`
ascending, then `sub2` ascending (lexicographic string compare), is a
permutation of its input, and is stable: two rows that agree on all
three keys keep their original relative order. -/
theorem C2_sort_final_spec (l : List Row) :
    List.Pairwise (fun a b =>
        rank b < rank a ∨ (rank a = rank b ∧
          (sub1 a < sub1 b ∨ (sub1 a = sub1 b ∧ strLE (sub2 a) (sub2 b) = true))))
      (sort_final l)
    ∧ List.Perm (sort_final l) l
    ∧ (∀ a b : Row, rank a = rank b → sub1 a = sub1 b → sub2 a = sub2 b →
        List.Sublist [a, b] l → List.Sublist [a, b] (sort_final l)) := by
  refine ⟨?_, List.mergeSort_perm l rowLE, ?_⟩
  · have hs := List.sorted_mergeSort rowLE_trans rowLE_total l
    exact hs.imp fun h => by
      simpa [rowLE, keyLE, sortKey, decide_eq_true_eq] using h
  · intro a b h1 h2 h3 hsub
    refine List.pair_sublist_mergeSort rowLE_trans rowLE_total ?_ hsub
    simp [rowLE, keyLE, sortKey, h1, h2, h3, strLE_refl]

/-- Witness for `C2_sort_final_spec`: the stability clause applied to two
rows with identical keys. -/
theorem C2_sort_final_spec_witness :
    List.Sublist [sampleRowZero, sampleRowZero]
      (sort_final [sampleRowBox, sampleRowZero, sampleRowZero]) :=
  (C2_sort_final_spec [sampleRowBox, sampleRowZero, sampleRowZero]).2.2
    sampleRowZero sampleRowZero rfl rfl rfl (by decide)

/-- **C8.**  The sorter is idempotent: sorting an already-sorted list
returns it unchanged, element for element. -/
theorem C8_sort_final_idempotent (l : List Row) :
    sort_final (sort_final l) = sort_final l :=
  List.mergeSort_of_sorted (List.sorted_mergeSort rowLE_trans rowLE_total l)

/-- **C3.**  The business filter of `prepare` (line 161) keeps a row iff
not both the 5th and the 7th positional columns equal 0, and whether a
row is kept depends only on those two fields. -/
theorem C3_zero_filter (l : List Row) (r : Row) :
    (r ∈ zeroFilter l ↔
      r ∈ l ∧ ¬(cellIsZero r.c4 = true ∧ cellIsZero r.c6 = true))
    ∧ (∀ s : Row, s.c4 = r.c4 → s.c6 = r.c6 → keepRow s = keepRow r)
    ∧ (keepRow r = false ↔ (cellIsZero r.c4 = true ∧ cellIsZero r.c6 = true)) := by
  refine ⟨?_, ?_, ?_⟩
  · cases hc4 : cellIsZero r.c4 <;> cases hc6 : cellIsZero r.c6 <;>
      simp [zeroFilter, List.mem_filter, keepRow, hc4, hc6]
  · intro s h4 h6
    simp [keepRow, h4, h6]
  · simp [keepRow]

/-- Witness for `C3_zero_filter`: a both-zero row is dropped. -/
theorem C3_zero_filter_witness :
    (sampleRowZero ∈ zeroFilter [sampleRowBox, sampleRowZero] ↔
      sampleRowZero ∈ [sampleRowBox, sampleRowZero]
        ∧ ¬(cellIsZero sampleRowZero.c4 = true ∧ cellIsZero sampleRowZero.c6 = true))
    ∧ keepRow sampleRowZero = keepRow sampleRowZero
    ∧ (keepRow sampleRowZero = false ↔
        (cellIsZero sampleRowZero.c4 = true ∧ cellIsZero sampleRowZero.c6 = true)) :=
  ⟨(C3_zero_filter [sampleRowBox, sampleRowZero] sampleRowZero).1,
   (C3_zero_filter [sampleRowBox, sampleRowZero] sampleRowZero).2.1
      sampleRowZero rfl rfl,
   (C3_zero_filter [sampleRowBox, sampleRowZero] sampleRowZero).2.2⟩

/-- **C4, counterexample.**  `write_out` never assigns the vertical
centering flag: a template sheet that has it switched on keeps it on,
contradicting the claimed "vertical centering off". -/
theorem C4_counterexample :
    (write_out_pagesetup 3 samplePage).verticalCentered = true
    ∧ (write_out_pagesetup 3 samplePage).verticalCentered ≠ false :=
  ⟨rfl, by decide⟩

/-- **C4, amended.**  After a successful write of `n` rows the page layout
is portrait, fit-to-width 1, margins top/bottom 0.4 and left/right 0.3,
horizontal centering on, vertical centering *unchanged from the template
sheet* (the code never sets it), and the print area is exactly
`A1:M(last written row)` with last row = destination start row + n − 1. -/
theorem C4_page_layout (n : Nat) (p : PageSetup) :
    (write_out_pagesetup n p).orientation = "portrait"
    ∧ (write_out_pagesetup n p).fitToWidth = some 1
    ∧ (write_out_pagesetup n p).marginTop = 0.4
    ∧ (write_out_pagesetup n p).marginBottom = 0.4
    ∧ (write_out_pagesetup n p).marginLeft = 0.3
    ∧ (write_out_pagesetup n p).marginRight = 0.3
    ∧ (write_out_pagesetup n p).horizontalCentered = true
    ∧ (write_out_pagesetup n p).verticalCentered = p.verticalCentered
    ∧ (write_out_pagesetup n p).printArea =
        ["A1:M" ++ toString (DATA_START_ROW_DST + n - 1)] :=
  ⟨rfl, rfl, rfl, rfl, rfl, rfl, rfl, rfl, rfl⟩

/-! ### The two formula templates -/

theorem kCell_render (r : Nat) : kCell r = "=" ++ render (kSpec r) := by
  apply String.ext
  simp [kCell, kSpec, render, String.data_append]

theorem mCell_render (r : Nat) : mCell r = "=" ++ render (mSpec r) := by
  apply String.ext
  simp [mCell, mSpec, render, String.data_append]

/-- **C7.**  For every written data row `r` the loop of `write_out` sets
exactly two formula cells in row `r`: the K cell carrying the rendering
of `(col C) - (col E) + (col G)` at row `r`, and the M cell carrying the
rendering of the 3-way conditional `mSpec`; rows outside the written
block get no formula cell. -/
theorem C7_formula_cells (n r : Nat) :
    (formulaCells n).filter (fun t => t.1 == r) =
      if DATA_START_ROW_DST ≤ r ∧ r < DATA_START_ROW_DST + n then
        [(r, "K", "=" ++ render (kSpec r)), (r, "M", "=" ++ render (mSpec r))]
      else [] := by
  induction n with
  | zero =>
    rw [if_neg (by omega)]
    rfl
  | succ n ih =>
    have hsplit : formulaCells (n + 1) =
        formulaCells n ++
          [(DATA_START_ROW_DST + n, "K", kCell (DATA_START_ROW_DST + n)),
           (DATA_START_ROW_DST + n, "M", mCell (DATA_START_ROW_DST + n))] := by
      simp [formulaCells, List.range_succ]
    rw [hsplit, List.filter_append, ih]
    by_cases hr : r = DATA_START_ROW_DST + n
    · subst hr
      rw [if_neg (by omega), if_pos (by omega)]
      simp [List.filter, kCell_render, mCell_render]
    · have hne : ((DATA_START_ROW_DST + n : Nat) == r) = false := by
        simp
        omega
      by_cases hin : DATA_START_ROW_DST ≤ r ∧ r < DATA_START_ROW_DST + n
      · rw [if_pos hin, if_pos (by omega)]
        simp [List.filter, hne]
      · rw [if_neg hin, if_neg (by omega)]
        simp [List.filter, hne]

/-! ### File-system behaviour of `safe_copy` and `write_out` -/

namespace FSM

/-- Behaviour of the probing loop on an arbitrary index list. -/
theorem probe_spec (stem srcN : String) (locked : List String) (fs : FS) :
    ∀ (n a : Nat),
      (((probe stem srcN locked fs (List.range' a n)).1 = .error ()) ↔
        ∀ i, a ≤ i → i < a + n → candName stem i ∈ locked)
      ∧ (∀ out, (probe stem srcN locked fs (List.range' a n)).1 = .ok out →
          ∃ i, a ≤ i ∧ i < a + n ∧ out = candName stem i ∧ candName stem i ∉ locked
            ∧ ∀ j, a ≤ j → j < i → candName stem j ∈ locked) := by
  intro n
  induction n with
  | zero =>
    intro a
    constructor
    · constructor
      · intro _ i h1 h2
        omega
      · intro _
        rfl
    · intro out h
      simp [probe] at h
  | succ n ih =>
    intro a
    rw [List.range'_succ]
    by_cases hm : candName stem a ∈ locked
    · have hred : probe stem srcN locked fs (a :: List.range' (a + 1) n)
          = probe stem srcN locked fs (List.range' (a + 1) n) := by
        simp [probe, copyFile, hm]
      rw [hred]
      obtain ⟨ihe, iho⟩ := ih (a + 1)
      constructor
      · rw [ihe]
        constructor
        · intro h i h1 h2
          rcases Nat.eq_or_lt_of_le h1 with rfl | hlt
          · exact hm
          · exact h i hlt (by omega)
        · intro h i h1 h2
          exact h i (by omega) (by omega)
      · intro out h
        obtain ⟨i, h1, h2, h3, h4, h5⟩ := iho out h
        refine ⟨i, by omega, by omega, h3, h4, ?_⟩
        intro j hj1 hj2
        rcases Nat.eq_or_lt_of_le hj1 with rfl | hlt
        · exact hm
        · exact h5 j hlt hj2
    · have hred : probe stem srcN locked fs (a :: List.range' (a + 1) n)
          = (.ok (candName stem a),
             fsUpdate fs (candName stem a) (some ((fs srcN).getD ""))) := by
        simp [probe, copyFile, hm]
      rw [hred]
      constructor
      · constructor
        · intro h
          exact absurd h (by simp)
        · intro h
          exact absurd (h a (le_refl a) (by omega)) hm
      · intro out h
        refine ⟨a, le_refl a, by omega, by simpa using h.symm, hm, ?_⟩
        intro j hj1 hj2
        omega

/-- **C5, counterexample.**  The output name always carries the literal
extension `.xlsm`: for the source `data.xlsx` the claim's
"stem + _prepared + same extension as the source" is violated. -/
theorem C5_counterexample :
    (safe_copy "data" "data.xlsx" fsEmpty []).1 = .ok (baseName "data")
    ∧ baseName "data" = "data_prepared.xlsm"
    ∧ "data_prepared.xlsm" ≠ "data" ++ "_prepared" ++ ".xlsx" :=
  ⟨rfl, rfl, by decide⟩

/-- **C5, amended.**  `safe_copy` names the duplicate stem + `_prepared` +
the fixed `.xlsm` extension; when that name is unused the copy goes there
directly.  When it exists, the candidates `_prepared(1)` … `_prepared(99)`
are probed in order, the first one whose creation does not fail is
returned, and a `PermissionError`-class error is raised iff all 99
candidates are unavailable. -/
theorem C5_safe_copy_spec (stem srcN : String) (fs : FS) (locked : List String) :
    ((fs (baseName stem)).isNone → baseName stem ∉ locked →
        (safe_copy stem srcN fs locked).1 = .ok (baseName stem))
    ∧ ((fs (baseName stem)).isSome →
        (((safe_copy stem srcN fs locked).1 = .error ()) ↔
          ∀ i, 1 ≤ i → i ≤ 99 → candName stem i ∈ locked))
    ∧ ((fs (baseName stem)).isSome →
        ∀ out, (safe_copy stem srcN fs locked).1 = .ok out →
          ∃ i, 1 ≤ i ∧ i ≤ 99 ∧ out = candName stem i ∧ candName stem i ∉ locked
            ∧ ∀ j, 1 ≤ j → j < i → candName stem j ∈ locked) := by
  refine ⟨?_, ?_, ?_⟩
  · intro hnone hnl
    have hcond : (fs (baseName stem)).isSome = false := by
      simp [Option.isNone_iff_eq_none] at hnone
      simp [hnone]
    simp [safe_copy, hcond, copyFile, hnl]
  · intro hsome
    have h := (probe_spec stem srcN locked fs 99 1).1
    rw [safe_copy, if_pos hsome, h]
    constructor
    · intro h' i h1 h2
      exact h' i h1 (by omega)
    · intro h' i h1 h2
      exact h' i h1 (by omega)
  · intro hsome out hout
    rw [safe_copy, if_pos hsome] at hout
    obtain ⟨i, h1, h2, h3, h4, h5⟩ := (probe_spec stem srcN locked fs 99 1).2 out hout
    exact ⟨i, h1, by omega, h3, h4, h5⟩

/-- Witness for `C5_safe_copy_spec`: with no pre-existing output file and
nothing locked, the copy is created under the base name. -/
theorem C5_safe_copy_spec_witness :
    (safe_copy "g" "g.xlsx" fsEmpty []).1 = .ok (baseName "g") :=
  (C5_safe_copy_spec "g" "g.xlsx" fsEmpty []).1 (by rfl) (by decide)

/-- Left-cancellation of string concatenation. -/
theorem str_append_cancel {s a b : String} (h : s ++ a = s ++ b) : a = b := by
  apply String.ext
  have hd := congrArg String.data h
  simp only [String.data_append] at hd
  exact List.append_cancel_left hd

theorem baseName_ne (stem ext : String) (hext : ext.data.head? ≠ some '_') :
    baseName stem ≠ stem ++ ext := by
  intro h
  apply hext
  rw [← str_append_cancel h]
  decide

theorem candName_ne (stem ext : String) (i : Nat)
    (hext : ext.data.head? ≠ some '_') :
    candName stem i ≠ stem ++ ext := by
  intro h
  apply hext
  rw [← str_append_cancel h]
  simp [candSuffix, String.data_append]

/-- The probing loop touches no file outside the candidate names. -/
theorem probe_frame (stem srcN : String) (locked : List String) (fs : FS)
    (is : List Nat) (n : String) (hn : ∀ i, n ≠ candName stem i) :
    (probe stem srcN locked fs is).2 n = fs n := by
  induction is with
  | nil => rfl
  | cons i rest ih =>
    by_cases hm : candName stem i ∈ locked
    · simpa [probe, copyFile, hm] using ih
    · simp [probe, copyFile, hm, fsUpdate, hn i]

/-- A successful probe returns one of the candidate names. -/
theorem probe_ok_name (stem srcN : String) (locked : List String) (fs : FS)
    (is : List Nat) (out : String)
    (h : (probe stem srcN locked fs is).1 = .ok out) :
    ∃ i, i ∈ is ∧ out = candName stem i := by
  induction is with
  | nil => simp [probe] at h
  | cons i rest ih =>
    by_cases hm : candName stem i ∈ locked
    · rw [show probe stem srcN locked fs (i :: rest)
            = probe stem srcN locked fs rest from by simp [probe, copyFile, hm]] at h
      obtain ⟨j, hj1, hj2⟩ := ih h
      exact ⟨j, List.mem_cons_of_mem i hj1, hj2⟩
    · rw [show (probe stem srcN locked fs (i :: rest)).1
            = .ok (candName stem i) from by simp [probe, copyFile, hm]] at h
      exact ⟨i, List.mem_cons_self i rest, by simpa using h.symm⟩

/-- `safe_copy` touches no file other than the base and candidate names. -/
theorem safe_copy_frame (stem srcN : String) (fs : FS) (locked : List String)
    (n : String) (hb : n ≠ baseName stem) (hc : ∀ i, n ≠ candName stem i) :
    (safe_copy stem srcN fs locked).2 n = fs n := by
  rw [safe_copy]
  by_cases hbase : (fs (baseName stem)).isSome
  · rw [if_pos hbase]
    exact probe_frame stem srcN locked fs _ n hc
  · rw [if_neg hbase]
    by_cases hl : baseName stem ∈ locked
    · simp [copyFile, hl]
    · simp [copyFile, hl, fsUpdate, hb]

/-- A successful `safe_copy` returns the base name or a candidate name. -/
theorem safe_copy_ok_name (stem srcN : String) (fs : FS) (locked : List String)
    (out : String) (h : (safe_copy stem srcN fs locked).1 = .ok out) :
    out = baseName stem ∨ ∃ i, out = candName stem i := by
  rw [safe_copy] at h
  by_cases hbase : (fs (baseName stem)).isSome
  · rw [if_pos hbase] at h
    obtain ⟨i, _, hi⟩ := probe_ok_name stem srcN locked fs _ out h
    exact Or.inr ⟨i, hi⟩
  · rw [if_neg hbase] at h
    by_cases hl : baseName stem ∈ locked
    · simp [copyFile, hl] at h
    · simp [copyFile, hl] at h
      exact Or.inl h.symm

/-- **C9.**  `write_out` never mutates the original input file
`stem ++ ext` (any name whose part after the stem does not start with
`_`): the resulting file system agrees with the initial one on the
source name whether the run succeeds or fails, and a returned output
path is never the source path. -/
theorem C9_write_out_frame (transform : String → String) (stem ext : String)
    (fs : FS) (locked : List String) (hext : ext.data.head? ≠ some '_') :
    (write_out transform stem (stem ++ ext) fs locked).2 (stem ++ ext)
      = fs (stem ++ ext)
    ∧ (∀ out, (write_out transform stem (stem ++ ext) fs locked).1 = .ok out →
        out ≠ stem ++ ext) := by
  have hframe : (safe_copy stem (stem ++ ext) fs locked).2 (stem ++ ext)
      = fs (stem ++ ext) :=
    safe_copy_frame stem (stem ++ ext) fs locked (stem ++ ext)
      (fun h => baseName_ne stem ext hext h.symm)
      (fun i h => candName_ne stem ext i hext h.symm)
  have hout : ∀ out, (safe_copy stem (stem ++ ext) fs locked).1 = .ok out →
      out ≠ stem ++ ext := by
    intro out h
    rcases safe_copy_ok_name stem (stem ++ ext) fs locked out h with h' | ⟨i, h'⟩
    · rw [h']
      exact baseName_ne stem ext hext
    · rw [h']
      exact candName_ne stem ext i hext
  rcases hsc : safe_copy stem (stem ++ ext) fs locked with ⟨res, fs2⟩
  have hfs2 : fs2 (stem ++ ext) = fs (stem ++ ext) := by
    rw [← hframe, hsc]
  cases res with
  | error e =>
    constructor
    · simp only [write_out, hsc]
      exact hfs2
    · intro out h
      simp only [write_out, hsc] at h
      exact absurd h (by simp)
  | ok out =>
    have hne : out ≠ stem ++ ext := hout out (by rw [hsc])
    constructor
    · simp only [write_out, hsc]
      show fsUpdate fs2 out (some (transform ((fs2 out).getD ""))) (stem ++ ext)
          = fs (stem ++ ext)
      simp only [fsUpdate]
      rw [if_neg (Ne.symm hne)]
      exact hfs2
    · intro out' h
      simp only [write_out, hsc] at h
      injection h with hh
      rw [← hh]
      exact hne

/-- Witness for `C9_write_out_frame`: a concrete run leaves the source
file's contents untouched. -/
theorem C9_write_out_frame_witness :
    (write_out id "f" ("f" ++ ".xlsm") (fsSingle ("f" ++ ".xlsm") "src") []).2
        ("f" ++ ".xlsm")
      = fsSingle ("f" ++ ".xlsm") "src" ("f" ++ ".xlsm") :=
  (C9_write_out_frame id "f" ".xlsm" (fsSingle ("f" ++ ".xlsm") "src") []
    (by decide)).1

end FSM


end Nouhin
